import Mathlib

/-!
Shallow embedding of the market-price-estimation pipeline of the
collector's-inventory application:

* `supabase/functions/market-analysis/index.ts` — search-term generation
  (`generateSearchTerms`), completed-listing search (`searcheBaySoldListings`,
  `getMockData`), market analysis (`calculateMarketAnalysis`), HTTP handler.
* the eBay-monitor edge function — active-listing search
  (`searchEbayListings`, `getMockEbayData`) and wishlist processing
  (`processWishlistItem`).

Modelling conventions:
* JS strings are Lean `String`s; machine floats are modelled as `ℚ`
  (all prices in the claims are ordinary decimal amounts).
* `Math.random()` draws, `Date` formatting results and the configured
  credential are supplied by explicit environment records: each `await`ed
  external effect (HTTP status, JSON payload shape, acknowledgement value,
  thrown exception) is an explicit outcome datum.
* Optional TS string fields that the code only reads through truthiness
  checks are modelled as `String` with `""` for `undefined` (both are falsy
  in the guards where they occur); fields read through `?.` chains keep
  `Option String`.
* `parseFloat` of an upstream price string is modelled by its result:
  `some q` for a numeric parse, `none` for `NaN` (non-numeric input);
  a missing price field goes through `|| '0'` in the source and is
  therefore modelled as `some 0`.
-/

/-- JS `a || b` for an optionally-present string `a` (both `undefined` and
`""` are falsy). -/
def jsOr (v : Option String) (d : String) : String :=
  match v with
  | some s => if s = "" then d else s
  | none => d

/-- JS `a || undefined` for an optionally-present string `a`. -/
def jsOrOpt (v : Option String) : Option String :=
  match v with
  | some s => if s = "" then none else some s
  | none => none

/-- Truthiness of an optional JS number (`undefined` and `0` are falsy). -/
def qTruthy (x : Option ℚ) : Bool :=
  match x with
  | some v => decide (v ≠ 0)
  | none => false

/-- JS `Math.round`: round half toward positive infinity, i.e. `⌊x + 1/2⌋`
(written with `Rat.floor` so that it evaluates by kernel reduction). -/
def jsRound (x : ℚ) : ℤ := (x + 1/2).floor

theorem jsRound_eq_floor (x : ℚ) : jsRound x = ⌊x + 1/2⌋ := by
  rw [jsRound, Rat.floor_def', ← Rat.floor_def]

/-- JS `Math.round(x * 100) / 100`: round to 2 decimal places, half up. -/
def jsRound2 (x : ℚ) : ℚ := (jsRound (x * 100) : ℚ) / 100

/-- Character-list form of JS `String.prototype.trim` (drop leading and
trailing whitespace). -/
def trimList (l : List Char) : List Char :=
  ((l.dropWhile Char.isWhitespace).reverse.dropWhile Char.isWhitespace).reverse

/-- JS `s.trim()`. -/
def jsTrim (s : String) : String := ⟨trimList s.data⟩

/-- JS `s.includes(sub)`: substring containment. -/
def jsIncludes (s sub : String) : Bool := decide (sub.data <:+: s.data)

/-- JS `Set` insertion-order deduplication, with the already-seen elements
accumulated: keeps the first occurrence of each element. -/
def jsSetDedupAux {α} [DecidableEq α] (seen : List α) : List α → List α
  | [] => []
  | x :: xs =>
    if x ∈ seen then jsSetDedupAux seen xs
    else x :: jsSetDedupAux (x :: seen) xs

/-- JS `[...new Set(l)]`: first-occurrence deduplication. -/
def jsSetDedup {α} [DecidableEq α] (l : List α) : List α := jsSetDedupAux [] l

/-- JS `Math.min(...prices)` on a non-empty spread (the empty case, which JS
maps to `Infinity`, is never reached at the call sites). -/
def jsMathMin : List ℚ → ℚ
  | [] => 0
  | p :: ps => ps.foldl min p

/-- JS `Math.max(...prices)` on a non-empty spread. -/
def jsMathMax : List ℚ → ℚ
  | [] => 0
  | p :: ps => ps.foldl max p

/-- Helper for `collapseWs`: the Boolean records whether the previous kept
character position was inside a whitespace run. -/
def collapseWsAux : Bool → List Char → List Char
  | _, [] => []
  | prevWs, c :: rest =>
    if c.isWhitespace then
      if prevWs then collapseWsAux true rest
      else ' ' :: collapseWsAux true rest
    else c :: collapseWsAux false rest

/-- JS `title.replace(/\s+/g, ' ')`: collapse each whitespace run to one
space. -/
def collapseWs (l : List Char) : List Char := collapseWsAux false l

/-- Hex digit character for a value below 16. -/
def hexDigit (n : ℕ) : Char :=
  if n < 10 then Char.ofNat ('0'.toNat + n) else Char.ofNat ('A'.toNat + n - 10)

/-- Percent-encoded byte. -/
def percentByte (b : ℕ) : List Char := ['%', hexDigit (b / 16), hexDigit (b % 16)]

/-- UTF-8 bytes of a character (numeric values). -/
def utf8Bytes (c : Char) : List ℕ :=
  let n := c.toNat
  if n < 0x80 then [n]
  else if n < 0x800 then [0xC0 + n / 0x40, 0x80 + n % 0x40]
  else if n < 0x10000 then
    [0xE0 + n / 0x1000, 0x80 + (n / 0x40) % 0x40, 0x80 + n % 0x40]
  else
    [0xF0 + n / 0x40000, 0x80 + (n / 0x1000) % 0x40, 0x80 + (n / 0x40) % 0x40,
      0x80 + n % 0x40]

/-- Characters `encodeURIComponent` leaves unescaped. -/
def isUnreservedURI (c : Char) : Bool :=
  c.isAlphanum || c ∈ ['-', '_', '.', '!', '~', '*', Char.ofNat 39, '(', ')']

/-- JS `encodeURIComponent`. -/
def encodeURIComponent (s : String) : String :=
  ⟨s.data.foldr (fun c acc =>
    (if isUnreservedURI c then [c]
     else (utf8Bytes c).foldr (fun b acc2 => percentByte b ++ acc2) []) ++ acc) []⟩

/-! ## Data model (market-analysis edge function) -/

/-- `MarketAnalysisRequest` from `market-analysis/index.ts`; the optional
string fields are modelled as `""` when absent (see header). -/
structure MarketAnalysisRequest where
  itemName : String
  manufacturer : String := ""
  pattern : String := ""
  category : String
  description : String := ""
  photoUrl : String := ""
deriving DecidableEq, Repr

/-- `eBayItem` from `market-analysis/index.ts`. -/
structure eBayItem where
  title : String
  price : ℚ
  soldDate : String
  condition : String
  url : String
  imageUrl : Option String := none
deriving DecidableEq, Repr

/-- Confidence grade. -/
inductive Confidence
  | high
  | medium
  | low
deriving DecidableEq, Repr

/-- `priceRange` component of the response. -/
structure PriceRange where
  min : ℚ
  max : ℚ
deriving DecidableEq, Repr

/-- `MarketAnalysisResponse` without `searchTermsUsed`
(the `Omit<MarketAnalysisResponse, 'searchTermsUsed'>` return type of
`calculateMarketAnalysis`). -/
structure MarketAnalysisCore where
  averagePrice : ℚ
  recentSales : List eBayItem
  priceRange : PriceRange
  confidence : Confidence
deriving DecidableEq, Repr

/-- Full `MarketAnalysisResponse`. -/
structure MarketAnalysisResponse extends MarketAnalysisCore where
  searchTermsUsed : List String
deriving DecidableEq, Repr

/-! ## Search-term generation -/

/-- The category-to-display-phrase conversion of `generateSearchTerms`
(line 175): `request.category === 'milk_glass' ? 'milk glass' : 'jadite'`. -/
def categoryDisplayName (category : String) : String :=
  if category = "milk_glass" then "milk glass" else "jadite"

/-- `generateSearchTerms` (market-analysis/index.ts, lines 171–205). -/
def generateSearchTerms (request : MarketAnalysisRequest) : List String :=
  let categoryName := categoryDisplayName request.category
  let combinedTerms :=
    [jsTrim (request.itemName ++ " " ++ categoryName),
     jsTrim (categoryName ++ " " ++ request.itemName),
     jsTrim ("vintage " ++ categoryName ++ " " ++ request.itemName)] ++
    (if request.manufacturer ≠ "" then
      [jsTrim (request.manufacturer ++ " " ++ categoryName),
       jsTrim (request.manufacturer ++ " " ++ request.itemName ++ " " ++ categoryName),
       jsTrim (categoryName ++ " " ++ request.manufacturer),
       jsTrim (request.manufacturer ++ " " ++ request.itemName),
       jsTrim (request.itemName ++ " " ++ request.manufacturer)]
     else []) ++
    (if request.pattern ≠ "" then
      [jsTrim (request.pattern ++ " " ++ categoryName),
       jsTrim (categoryName ++ " " ++ request.pattern)]
     else [])
  jsSetDedup (combinedTerms.filter (fun t => t ≠ ""))

/-! ## Market analysis -/

/-- `calculateMarketAnalysis` (market-analysis/index.ts, lines 207–241). -/
def calculateMarketAnalysis (soldItems : List eBayItem) : MarketAnalysisCore :=
  match soldItems with
  | [] =>
    { averagePrice := 0, recentSales := [], priceRange := ⟨0, 0⟩,
      confidence := Confidence.low }
  | first :: rest =>
    let mostRecentPrice := first.price
    let prices := (first :: rest).map (fun item => item.price)
    let minPrice := jsMathMin prices
    let maxPrice := jsMathMax prices
    let confidence : Confidence :=
      if 5 ≤ (first :: rest).length then
        if (maxPrice - minPrice) / mostRecentPrice < 3/10 then Confidence.high
        else Confidence.medium
      else if 3 ≤ (first :: rest).length then Confidence.medium
      else Confidence.low
    { averagePrice := jsRound2 mostRecentPrice,
      recentSales := (first :: rest).take 10,
      priceRange := ⟨jsRound2 minPrice, jsRound2 maxPrice⟩,
      confidence := confidence }

/-- Arithmetic mean of a price list. Modelled from the spec's words
"the arithmetic mean of all the prices", for comparison with the code's
`averagePrice`; not a source function. -/
def arithmeticMean (l : List ℚ) : ℚ := l.sum / l.length

/-! ## Completed-listing search (market-analysis edge function) -/

/-- One raw item of the completed-items payload, after the single-element
array unwrapping of the source. `sellingState` is the
`sellingStatus?.[0]?.sellingState?.[0]` chain (`none` when the chain is
broken); `price` is the `parseFloat` result of
`sellingStatus[0].currentPrice?.[0]?.__value__ || '0'` (see header). -/
structure RawSoldItem where
  sellingState : Option String
  title : Option String
  price : Option ℚ
  endTime : Option String
  condition : Option String
  url : Option String
  imageUrl : Option String
deriving DecidableEq, Repr

/-- Outcome of one `findCompletedItems` call for one search term. -/
inductive TermOutcome
  /-- `!response.ok`: the loop logs and `continue`s. -/
  | httpError
  /-- `fetch`/`response.json()` threw: caught by the inner `catch`. -/
  | thrown
  /-- Parsed payload whose `ack` is not `'Success'` or which has no
  `searchResult[0].item` array. -/
  | badAck
  /-- `ack === 'Success'` with an item array. -/
  | items (rawItems : List RawSoldItem)
deriving DecidableEq, Repr

/-- Environment of `searcheBaySoldListings`: the configured credential, the
per-term upstream outcome, the `Math.random()` draws and `Date` strings used
by `getMockData`, and the `new Date().toISOString()` default for a missing
`endTime`. -/
structure SoldEnv where
  appId : Option String
  outcome : String → TermOutcome
  r1 : ℚ
  r2 : ℚ
  r3 : ℚ
  soldDate1 : String
  soldDate2 : String
  soldDate3 : String
  nowIso : String

/-- `generateEbaySearchUrl` (market-analysis/index.ts, lines 124–127). -/
def generateEbaySearchUrl (title : String) : String :=
  "https://www.ebay.com/sch/i.html?_nkw=" ++
    encodeURIComponent (jsTrim ⟨collapseWs title.data⟩) ++
    "&_sacat=0&LH_Sold=1&LH_Complete=1&_sop=13&rt=nc"

/-- Brand names recognised by `getMockData`. -/
def mockBrands : List String :=
  ["fenton", "fire-king", "anchor hocking", "pyrex", "corning"]

/-- `getMockData` (market-analysis/index.ts, lines 122–169). -/
def getMockData (env : SoldEnv) (searchTerms : List String) : List eBayItem :=
  let primaryTerm := jsOr searchTerms.head? "collectible"
  let manufacturer :=
    jsOr (searchTerms.find? (fun term =>
      mockBrands.any (fun brand => jsIncludes term.toLower brand))) ""
  let mockSoldItems : List eBayItem :=
    [{ title := manufacturer ++ " " ++ primaryTerm ++ " - Vintage Collectible",
       price := jsRound2 (env.r1 * 50 + 50),
       soldDate := env.soldDate1,
       condition := "Excellent",
       url := generateEbaySearchUrl (manufacturer ++ " " ++ primaryTerm ++ " vintage") },
     { title := jsTrim ("Vintage " ++ primaryTerm ++ " " ++
         (if manufacturer ≠ "" then "by " ++ manufacturer else "")),
       price := jsRound2 (env.r2 * 40 + 40),
       soldDate := env.soldDate2,
       condition := "Very Good",
       url := generateEbaySearchUrl ("vintage " ++ primaryTerm ++ " " ++ manufacturer) },
     { title := jsTrim (primaryTerm ++ " Collectible Glass " ++
         (if manufacturer ≠ "" then "- " ++ manufacturer else "")),
       price := jsRound2 (env.r3 * 60 + 60),
       soldDate := env.soldDate3,
       condition := "Good",
       url := generateEbaySearchUrl (primaryTerm ++ " collectible glass " ++ manufacturer) }]
  let relevantItems := mockSoldItems.filter (fun item =>
    searchTerms.any (fun term => jsIncludes item.title.toLower term.toLower))
  if 0 < relevantItems.length then relevantItems else mockSoldItems.take 3

/-- The per-item body of the inner loop of `searcheBaySoldListings`
(lines 88–103): keep an item only if its selling state is
`'EndedWithSales'` and its parsed price is positive. -/
def soldItemOf (env : SoldEnv) (item : RawSoldItem) : Option eBayItem :=
  if item.sellingState = some "EndedWithSales" then
    match item.price with
    | some p =>
      if 0 < p then
        some { title := jsOr item.title "Unknown Item",
               price := p,
               soldDate := jsOr item.endTime env.nowIso,
               condition := jsOr item.condition "Unknown",
               url := jsOr item.url "#",
               imageUrl := jsOrOpt item.imageUrl }
      else none
    | none => none
  else none

/-- The sold items one term's outcome contributes to `results`: nothing
unless the call parsed with `ack === 'Success'` and an item array. -/
def extractSoldItems (env : SoldEnv) : TermOutcome → List eBayItem
  | TermOutcome.items rawItems => rawItems.filterMap (soldItemOf env)
  | _ => []

/-- The `results` accumulation loop of `searcheBaySoldListings`
(lines 48–111): one call per term over the first 3 terms, in order,
appending each term's contribution. -/
def liveSoldResults (env : SoldEnv) (searchTerms : List String) : List eBayItem :=
  (searchTerms.take 3).foldl
    (fun acc term => acc ++ extractSoldItems env (env.outcome term)) []

/-- `searcheBaySoldListings` (market-analysis/index.ts, lines 38–120). -/
def searcheBaySoldListings (env : SoldEnv) (searchTerms : List String) :
    List eBayItem :=
  if env.appId.getD "" = "" then getMockData env searchTerms
  else
    let results := liveSoldResults env searchTerms
    if 0 < results.length then results.take 10 else getMockData env searchTerms

/-! ## HTTP handler (market-analysis) -/

/-- Body of an HTTP response of the market-analysis handler. -/
inductive ResponseBody
  | empty
  | error (msg : String)
  | success (resp : MarketAnalysisResponse)
deriving DecidableEq, Repr

/-- An HTTP response (status and JSON body; headers carry no logic). -/
structure HttpResponse where
  status : ℕ
  body : ResponseBody
deriving DecidableEq, Repr

/-- An inbound request to the market-analysis handler: its method and the
result of `await req.json()` (`none` when parsing throws, which the outer
`catch` turns into a 500). -/
structure HttpRequest where
  method : String
  body : Option MarketAnalysisRequest
deriving DecidableEq, Repr

/-- The `Deno.serve` handler of market-analysis/index.ts (lines 243–313),
with the completed-listing search abstracted as a function argument. -/
def handleMarketAnalysis (search : List String → List eBayItem)
    (req : HttpRequest) : HttpResponse :=
  if req.method = "OPTIONS" then ⟨200, ResponseBody.empty⟩
  else if req.method ≠ "POST" then ⟨405, ResponseBody.error "Method not allowed"⟩
  else
    match req.body with
    | none => ⟨500, ResponseBody.error "Failed to analyze market data"⟩
    | some requestData =>
      if requestData.itemName = "" ∨ requestData.category = "" then
        ⟨400, ResponseBody.error "Item name and category are required"⟩
      else
        let searchTerms := generateSearchTerms requestData
        let soldItems := search searchTerms
        let analysis := calculateMarketAnalysis soldItems
        ⟨200, ResponseBody.success { analysis with searchTermsUsed := searchTerms }⟩

/-! ## Active-listing search (eBay-monitor edge function) -/

/-- `EbayListing` from the eBay-monitor function. -/
structure EbayListing where
  title : String
  price : ℚ
  url : String
  imageUrl : Option String := none
  endTime : String
  condition : Option String := none
deriving DecidableEq, Repr

/-- One raw item of the `findItemsByKeywords` payload; `price` is the
`parseFloat` result of `sellingStatus?.[0]?.currentPrice?.[0]?.__value__
|| '0'` (see header). -/
structure RawActiveItem where
  title : Option String
  price : Option ℚ
  url : Option String
  imageUrl : Option String
  endTime : Option String
  condition : Option String
deriving DecidableEq, Repr

/-- Outcome of the single `findItemsByKeywords` call. -/
inductive ActiveOutcome
  /-- `!response.ok`. -/
  | httpError
  /-- `fetch`/`response.json()` threw: caught by the outer `catch`. -/
  | thrown
  /-- Payload whose `ack` is not `'Success'` or with no item array. -/
  | badAck
  /-- `ack === 'Success'` with an item array. -/
  | items (rawItems : List RawActiveItem)
deriving DecidableEq, Repr

/-- Environment of `searchEbayListings`: credential, call outcome, the two
`Math.random()` draws and `Date` strings of `getMockEbayData`, and the
`toISOString` default for a missing `endTime`. -/
structure ActiveEnv where
  appId : Option String
  outcome : ActiveOutcome
  mr1 : ℚ
  mr2 : ℚ
  endTime1 : String
  endTime2 : String
  nowIso : String
deriving DecidableEq, Repr

/-- `getMockEbayData` (eBay-monitor function, lines 97–118). -/
def getMockEbayData (env : ActiveEnv) (searchTerm : String)
    (maxPrice : Option ℚ) : List EbayListing :=
  let basePrice : ℚ :=
    if qTruthy maxPrice then min (maxPrice.getD 0 * (8/10)) 50 else 50
  ([{ title := searchTerm ++ " - Vintage Collectible",
      price := jsRound2 (env.mr1 * basePrice + basePrice * (1/2)),
      url := "https://www.ebay.com/sch/i.html?_nkw=" ++ encodeURIComponent searchTerm,
      imageUrl := none,
      endTime := env.endTime1,
      condition := some "Very Good" },
    { title := "Rare " ++ searchTerm ++ " Collection Item",
      price := jsRound2 (env.mr2 * basePrice + basePrice * (3/10)),
      url := "https://www.ebay.com/sch/i.html?_nkw=" ++ encodeURIComponent searchTerm,
      imageUrl := none,
      endTime := env.endTime2,
      condition := some "Good" }] : List EbayListing).filter
    (fun item => !qTruthy maxPrice || decide (item.price ≤ maxPrice.getD 0))

/-- The per-item body of the success-path loop of `searchEbayListings`
(lines 71–84): build the listing, keep it only if its price is positive. -/
def activeListingOf (env : ActiveEnv) (item : RawActiveItem) : Option EbayListing :=
  match item.price with
  | some p =>
    if 0 < p then
      some { title := jsOr item.title "Unknown Item",
             price := p,
             url := jsOr item.url "#",
             imageUrl := jsOrOpt item.imageUrl,
             endTime := jsOr item.endTime env.nowIso,
             condition := jsOrOpt item.condition }
    else none
  | none => none

/-- `searchEbayListings` (eBay-monitor function, lines 22–95). -/
def searchEbayListings (env : ActiveEnv) (searchTerm : String)
    (maxPrice : Option ℚ) : List EbayListing :=
  if env.appId.getD "" = "" then getMockEbayData env searchTerm maxPrice
  else
    match env.outcome with
    | ActiveOutcome.items rawItems => rawItems.filterMap (activeListingOf env)
    | _ => getMockEbayData env searchTerm maxPrice

/-! ## Wishlist monitoring -/

/-- A `wishlist_items` row, restricted to the fields the function reads. -/
structure WishlistItem where
  id : String
  itemName : String
  ebaySearchTerm : Option String
  desiredPriceMax : Option ℚ
  status : String
  lastCheckedAt : Option String
  updatedAt : String
deriving DecidableEq, Repr

/-- A `found_listings` row as inserted by `processWishlistItem`. -/
structure FoundListing where
  wishlistItemId : String
  platform : String
  listingTitle : String
  listingPrice : ℚ
  listingUrl : String
  listingImageUrl : Option String
  foundAt : String
  notified : Bool
deriving DecidableEq, Repr

/-- A point at which an `await`ed store operation rejects (is thrown):
before processing the listing at a given loop index, or at the final
timestamp update. Caught by the outer `catch`, which returns 0. -/
inductive ProcException
  | atIndex (i : ℕ)
  | atUpdate
deriving DecidableEq, Repr

/-- Environment of `processWishlistItem`: the search environment, whether a
given insert returns an error object, an optional thrown exception, and the
`new Date().toISOString()` value. -/
structure MonitorEnv where
  searchEnv : ActiveEnv
  insertFails : FoundListing → Bool
  exn : Option ProcException
  now : String

/-- The row `processWishlistItem` inserts for a listing (lines 148–159). -/
def foundRowOf (env : MonitorEnv) (itemId : String) (listing : EbayListing) :
    FoundListing :=
  { wishlistItemId := itemId,
    platform := "ebay",
    listingTitle := listing.title,
    listingPrice := listing.price,
    listingUrl := listing.url,
    listingImageUrl := listing.imageUrl,
    foundAt := env.now,
    notified := false }

/-- The existing-listing lookup (lines 139–144): any row with the same
`(wishlist_item_id, listing_url)` pair. -/
def existsInStore (store : List FoundListing) (itemId url : String) : Bool :=
  store.any (fun r => r.wishlistItemId == itemId && r.listingUrl == url)

/-- The listing loop of `processWishlistItem` (lines 137–168), with the
loop index, the running count of successful inserts and the store threaded
through; the final `Bool` reports whether an exception was thrown (in which
case the store keeps the mutations made so far). -/
def processListings (env : MonitorEnv) (itemId : String) :
    List EbayListing → ℕ → ℕ → List FoundListing →
      ℕ × List FoundListing × Bool
  | [], _, count, store => (count, store, false)
  | listing :: restL, i, count, store =>
    if env.exn = some (ProcException.atIndex i) then (count, store, true)
    else if existsInStore store itemId listing.url then
      processListings env itemId restL (i + 1) count store
    else
      let row := foundRowOf env itemId listing
      if env.insertFails row then processListings env itemId restL (i + 1) count store
      else processListings env itemId restL (i + 1) (count + 1) (store ++ [row])

/-- `processWishlistItem` (eBay-monitor function, lines 120–185). Returns
the new-listings count, the store after the run, and the wishlist item
(with its timestamps updated when the update statement runs). -/
def processWishlistItem (env : MonitorEnv) (item : WishlistItem)
    (store : List FoundListing) : ℕ × List FoundListing × WishlistItem :=
  if jsTrim (item.ebaySearchTerm.getD "") = "" then (0, store, item)
  else
    let listings :=
      searchEbayListings env.searchEnv (item.ebaySearchTerm.getD "")
        item.desiredPriceMax
    match processListings env item.id listings 0 0 store with
    | (count, store2, threw) =>
      if threw then (0, store2, item)
      else if env.exn = some ProcException.atUpdate then (0, store2, item)
      else
        (count, store2,
          { item with lastCheckedAt := some env.now, updatedAt := env.now })

/-- The dedup-key uniqueness invariant: at most one `FoundListing` per
`(wishlistItemId, listingUrl)` pair. -/
def storeKeyUnique (store : List FoundListing) : Prop :=
  ∀ itemId url : String,
    (store.filter (fun r => r.wishlistItemId == itemId && r.listingUrl == url)).length ≤ 1

/-! ## Helper lemmas -/

theorem mem_jsSetDedupAux {α} [DecidableEq α] (l : List α) :
    ∀ (seen : List α) (a : α), a ∈ jsSetDedupAux seen l ↔ a ∈ l ∧ a ∉ seen := by
  induction l with
  | nil => intro seen a; simp [jsSetDedupAux]
  | cons x xs ih =>
    intro seen a
    by_cases hx : x ∈ seen
    · simp only [jsSetDedupAux, if_pos hx, ih, List.mem_cons]
      constructor
      · rintro ⟨h1, h2⟩; exact ⟨Or.inr h1, h2⟩
      · rintro ⟨h1 | h1, h2⟩
        · exact absurd (h1 ▸ hx) h2
        · exact ⟨h1, h2⟩
    · simp only [jsSetDedupAux, if_neg hx, List.mem_cons, ih]
      constructor
      · rintro (rfl | ⟨h1, h2⟩)
        · exact ⟨Or.inl rfl, hx⟩
        · exact ⟨Or.inr h1, fun hs => h2 (Or.inr hs)⟩
      · rintro ⟨rfl | h1, h2⟩
        · exact Or.inl rfl
        · by_cases hax : a = x
          · exact Or.inl hax
          · exact Or.inr ⟨h1, fun hs => hs.elim hax h2⟩

theorem mem_jsSetDedup {α} [DecidableEq α] {l : List α} {a : α} :
    a ∈ jsSetDedup l ↔ a ∈ l := by
  simp [jsSetDedup, mem_jsSetDedupAux]

theorem nodup_jsSetDedupAux {α} [DecidableEq α] (l : List α) :
    ∀ seen : List α, (jsSetDedupAux seen l).Nodup := by
  induction l with
  | nil => intro seen; simp [jsSetDedupAux]
  | cons x xs ih =>
    intro seen
    simp only [jsSetDedupAux]
    by_cases hx : x ∈ seen
    · rw [if_pos hx]; exact ih seen
    · rw [if_neg hx]
      refine List.Nodup.cons ?_ (ih (x :: seen))
      intro hmem
      exact ((mem_jsSetDedupAux xs (x :: seen) x).mp hmem).2 (List.mem_cons_self _ _)

theorem nodup_jsSetDedup {α} [DecidableEq α] (l : List α) :
    (jsSetDedup l).Nodup := nodup_jsSetDedupAux l []

theorem isInfix_dropWhile (p : Char → Bool) (hc : Char) (ct : List Char)
    (hh : p hc = false) :
    ∀ l : List Char, (hc :: ct) <:+: l → (hc :: ct) <:+: l.dropWhile p := by
  intro l
  induction l with
  | nil => intro h; simp at h
  | cons x xs ih =>
    intro h
    by_cases hpx : p x = true
    · rw [List.dropWhile_cons, if_pos hpx]
      rcases List.infix_cons_iff.mp h with hpre | hinf
      · rcases List.cons_prefix_cons.mp hpre with ⟨rfl, -⟩
        rw [hpx] at hh; exact absurd hh (by simp)
      · exact ih hinf
    · rw [List.dropWhile_cons, if_neg hpx]
      exact h

theorem isInfix_trimList (c l : List Char) (hne : c ≠ [])
    (hh : Char.isWhitespace c.headI = false)
    (hl : Char.isWhitespace c.reverse.headI = false)
    (h : c <:+: l) : c <:+: trimList l := by
  obtain ⟨hc, ct, rfl⟩ : ∃ hc ct, c = hc :: ct := by
    cases c with
    | nil => exact absurd rfl hne
    | cons hc ct => exact ⟨hc, ct, rfl⟩
  have s1 : (hc :: ct) <:+: l.dropWhile Char.isWhitespace :=
    isInfix_dropWhile _ hc ct (by simpa using hh) l h
  have s2 : (hc :: ct).reverse <:+: (l.dropWhile Char.isWhitespace).reverse :=
    List.reverse_infix.mpr s1
  cases hrev : (hc :: ct).reverse with
  | nil => exact absurd hrev (by simp)
  | cons hr rt =>
    rw [hrev] at s2 hl
    have s3 : (hr :: rt) <:+:
        ((l.dropWhile Char.isWhitespace).reverse.dropWhile Char.isWhitespace) :=
      isInfix_dropWhile _ hr rt (by simpa using hl) _ s2
    have hcrw : (hc :: ct) = (hr :: rt).reverse := by
      rw [← hrev, List.reverse_reverse]
    rw [hcrw]
    exact List.reverse_infix.mpr s3

theorem jsIncludes_jsTrim_of_isInfix (s cat : String)
    (hne : cat.data ≠ [])
    (hh : Char.isWhitespace cat.data.headI = false)
    (hl : Char.isWhitespace cat.data.reverse.headI = false)
    (h : cat.data <:+: s.data) : jsIncludes (jsTrim s) cat = true := by
  have : cat.data <:+: trimList s.data := isInfix_trimList _ _ hne hh hl h
  simpa [jsIncludes, jsTrim] using this

theorem categoryDisplayName_isInfix_conds (c : String) :
    (categoryDisplayName c).data ≠ [] ∧
      Char.isWhitespace (categoryDisplayName c).data.headI = false ∧
      Char.isWhitespace (categoryDisplayName c).data.reverse.headI = false := by
  unfold categoryDisplayName
  split <;> exact ⟨by decide, by decide, by decide⟩

theorem jsIncludes_jsTrim_categoryDisplayName (s : String) (c : String)
    (h : (categoryDisplayName c).data <:+: s.data) :
    jsIncludes (jsTrim s) (categoryDisplayName c) = true := by
  obtain ⟨h1, h2, h3⟩ := categoryDisplayName_isInfix_conds c
  exact jsIncludes_jsTrim_of_isInfix s _ h1 h2 h3 h

theorem ne_empty_of_trim_isInfix (s cat : String)
    (hne : cat.data ≠ [])
    (hh : Char.isWhitespace cat.data.headI = false)
    (hl : Char.isWhitespace cat.data.reverse.headI = false)
    (h : cat.data <:+: s.data) : jsTrim s ≠ "" := by
  have hinf : cat.data <:+: trimList s.data := isInfix_trimList _ _ hne hh hl h
  intro hcontra
  have : trimList s.data = [] := congrArg String.data hcontra
  rw [this, List.infix_nil] at hinf
  exact hne hinf

theorem generateSearchTerms_includes (request : MarketAnalysisRequest) (t : String)
    (ht : t ∈ generateSearchTerms request)
    (h4 : t ≠ jsTrim (request.manufacturer ++ " " ++ request.itemName))
    (h5 : t ≠ jsTrim (request.itemName ++ " " ++ request.manufacturer)) :
    jsIncludes t (categoryDisplayName request.category) = true := by
  simp only [generateSearchTerms] at ht
  have hmem := (List.mem_filter.mp (mem_jsSetDedup.mp ht)).1
  by_cases hman : request.manufacturer = "" <;>
    by_cases hpat : request.pattern = ""
  · rw [if_neg (not_not_intro hman), if_neg (not_not_intro hpat)] at hmem
    simp only [List.append_nil, List.mem_cons, List.not_mem_nil, or_false] at hmem
    rcases hmem with rfl | rfl | rfl
    · exact jsIncludes_jsTrim_categoryDisplayName _ _
        ⟨request.itemName.data ++ " ".data, [], by simp [String.data_append]⟩
    · exact jsIncludes_jsTrim_categoryDisplayName _ _
        ⟨[], " ".data ++ request.itemName.data, by simp [String.data_append]⟩
    · exact jsIncludes_jsTrim_categoryDisplayName _ _
        ⟨"vintage ".data, " ".data ++ request.itemName.data, by simp [String.data_append]⟩
  · rw [if_neg (not_not_intro hman), if_pos hpat] at hmem
    simp only [List.nil_append, List.mem_append, List.mem_cons, List.not_mem_nil,
      or_false] at hmem
    rcases hmem with (rfl | rfl | rfl) | (rfl | rfl)
    · exact jsIncludes_jsTrim_categoryDisplayName _ _
        ⟨request.itemName.data ++ " ".data, [], by simp [String.data_append]⟩
    · exact jsIncludes_jsTrim_categoryDisplayName _ _
        ⟨[], " ".data ++ request.itemName.data, by simp [String.data_append]⟩
    · exact jsIncludes_jsTrim_categoryDisplayName _ _
        ⟨"vintage ".data, " ".data ++ request.itemName.data, by simp [String.data_append]⟩
    · exact jsIncludes_jsTrim_categoryDisplayName _ _
        ⟨request.pattern.data ++ " ".data, [], by simp [String.data_append]⟩
    · exact jsIncludes_jsTrim_categoryDisplayName _ _
        ⟨[], " ".data ++ request.pattern.data, by simp [String.data_append]⟩
  · rw [if_pos hman, if_neg (not_not_intro hpat)] at hmem
    simp only [List.append_nil, List.mem_append, List.mem_cons, List.not_mem_nil,
      or_false] at hmem
    rcases hmem with (rfl | rfl | rfl) | (rfl | rfl | rfl | rfl | rfl)
    · exact jsIncludes_jsTrim_categoryDisplayName _ _
        ⟨request.itemName.data ++ " ".data, [], by simp [String.data_append]⟩
    · exact jsIncludes_jsTrim_categoryDisplayName _ _
        ⟨[], " ".data ++ request.itemName.data, by simp [String.data_append]⟩
    · exact jsIncludes_jsTrim_categoryDisplayName _ _
        ⟨"vintage ".data, " ".data ++ request.itemName.data, by simp [String.data_append]⟩
    · exact jsIncludes_jsTrim_categoryDisplayName _ _
        ⟨request.manufacturer.data ++ " ".data, [], by simp [String.data_append]⟩
    · exact jsIncludes_jsTrim_categoryDisplayName _ _
        ⟨request.manufacturer.data ++ " ".data ++ request.itemName.data ++ " ".data, [],
          by simp [String.data_append]⟩
    · exact jsIncludes_jsTrim_categoryDisplayName _ _
        ⟨[], " ".data ++ request.manufacturer.data, by simp [String.data_append]⟩
    · exact absurd rfl h4
    · exact absurd rfl h5
  · rw [if_pos hman, if_pos hpat] at hmem
    simp only [List.mem_append, List.mem_cons, List.not_mem_nil, or_false] at hmem
    rcases hmem with ((rfl | rfl | rfl) | (rfl | rfl | rfl | rfl | rfl)) | (rfl | rfl)
    · exact jsIncludes_jsTrim_categoryDisplayName _ _
        ⟨request.itemName.data ++ " ".data, [], by simp [String.data_append]⟩
    · exact jsIncludes_jsTrim_categoryDisplayName _ _
        ⟨[], " ".data ++ request.itemName.data, by simp [String.data_append]⟩
    · exact jsIncludes_jsTrim_categoryDisplayName _ _
        ⟨"vintage ".data, " ".data ++ request.itemName.data, by simp [String.data_append]⟩
    · exact jsIncludes_jsTrim_categoryDisplayName _ _
        ⟨request.manufacturer.data ++ " ".data, [], by simp [String.data_append]⟩
    · exact jsIncludes_jsTrim_categoryDisplayName _ _
        ⟨request.manufacturer.data ++ " ".data ++ request.itemName.data ++ " ".data, [],
          by simp [String.data_append]⟩
    · exact jsIncludes_jsTrim_categoryDisplayName _ _
        ⟨[], " ".data ++ request.manufacturer.data, by simp [String.data_append]⟩
    · exact absurd rfl h4
    · exact absurd rfl h5
    · exact jsIncludes_jsTrim_categoryDisplayName _ _
        ⟨request.pattern.data ++ " ".data, [], by simp [String.data_append]⟩
    · exact jsIncludes_jsTrim_categoryDisplayName _ _
        ⟨[], " ".data ++ request.pattern.data, by simp [String.data_append]⟩

theorem mem_generateSearchTerms_base (request : MarketAnalysisRequest) :
    jsTrim (request.itemName ++ " " ++ categoryDisplayName request.category) ∈
        generateSearchTerms request ∧
      jsTrim (categoryDisplayName request.category ++ " " ++ request.itemName) ∈
        generateSearchTerms request ∧
      jsTrim ("vintage " ++ categoryDisplayName request.category ++ " " ++ request.itemName) ∈
        generateSearchTerms request := by
  obtain ⟨h1, h2, h3⟩ := categoryDisplayName_isInfix_conds request.category
  refine ⟨?_, ?_, ?_⟩ <;>
    (simp only [generateSearchTerms]; rw [mem_jsSetDedup, List.mem_filter]) <;>
    refine ⟨by simp, ?_⟩
  · simpa using ne_empty_of_trim_isInfix _ _ h1 h2 h3
      ⟨request.itemName.data ++ " ".data, [], by simp [String.data_append]⟩
  · simpa using ne_empty_of_trim_isInfix _ _ h1 h2 h3
      ⟨[], " ".data ++ request.itemName.data, by simp [String.data_append]⟩
  · simpa using ne_empty_of_trim_isInfix _ _ h1 h2 h3
      ⟨"vintage ".data, " ".data ++ request.itemName.data, by simp [String.data_append]⟩

theorem foldl_min_of_all_eq (a : ℚ) (l : List ℚ) (h : ∀ x ∈ l, x = a) :
    l.foldl min a = a := by
  induction l with
  | nil => rfl
  | cons b t ih =>
    rw [List.foldl_cons, h b (List.mem_cons_self _ _), min_self]
    exact ih (fun x hx => h x (List.mem_cons_of_mem _ hx))

theorem foldl_max_of_all_eq (a : ℚ) (l : List ℚ) (h : ∀ x ∈ l, x = a) :
    l.foldl max a = a := by
  induction l with
  | nil => rfl
  | cons b t ih =>
    rw [List.foldl_cons, h b (List.mem_cons_self _ _), max_self]
    exact ih (fun x hx => h x (List.mem_cons_of_mem _ hx))

/-! ## Claim theorems: search-term generation -/

/-- C1 (counterexample): for the item `{itemName: "Hen", manufacturer:
"Fenton", category: "milk_glass"}`, `generateSearchTerms` returns the term
`"Fenton Hen"`, which does not contain the category display phrase
`"milk glass"` — refuting "every returned term contains the category display
phrase as a substring, including the manufacturer-qualified terms". -/
theorem generateSearchTerms_manufacturer_term_lacks_category :
    "Fenton Hen" ∈ generateSearchTerms
        { itemName := "Hen", manufacturer := "Fenton", category := "milk_glass" } ∧
      jsIncludes "Fenton Hen" "milk glass" = false := by decide

/-- C1 (amended): for every request with non-empty name and category,
`generateSearchTerms` returns a sequence with no exact (case-sensitive)
duplicates that contains each of the three base category terms, and every
returned term other than the two category-free manufacturer terms
`{manufacturer} {itemName}` and `{itemName} {manufacturer}` contains the
category display phrase as a substring. -/
theorem generateSearchTerms_dedup_and_category_terms
    (request : MarketAnalysisRequest)
    (hname : request.itemName ≠ "") (hcat : request.category ≠ "") :
    (generateSearchTerms request).Nodup ∧
      jsTrim (request.itemName ++ " " ++ categoryDisplayName request.category) ∈
        generateSearchTerms request ∧
      jsTrim (categoryDisplayName request.category ++ " " ++ request.itemName) ∈
        generateSearchTerms request ∧
      jsTrim ("vintage " ++ categoryDisplayName request.category ++ " " ++ request.itemName) ∈
        generateSearchTerms request ∧
      ∀ t ∈ generateSearchTerms request,
        t ≠ jsTrim (request.manufacturer ++ " " ++ request.itemName) →
        t ≠ jsTrim (request.itemName ++ " " ++ request.manufacturer) →
        jsIncludes t (categoryDisplayName request.category) = true := by
  obtain ⟨m1, m2, m3⟩ := mem_generateSearchTerms_base request
  exact ⟨nodup_jsSetDedup _, m1, m2, m3,
    fun t ht h4 h5 => generateSearchTerms_includes request t ht h4 h5⟩

/-- C1 (witness). -/
theorem generateSearchTerms_dedup_and_category_terms_witness :
    ("Hen" : String) ≠ "" ∧ ("milk_glass" : String) ≠ "" ∧
      (generateSearchTerms { itemName := "Hen", category := "milk_glass" }).Nodup ∧
      jsTrim ("Hen" ++ " " ++ categoryDisplayName "milk_glass") ∈
        generateSearchTerms { itemName := "Hen", category := "milk_glass" } := by
  have h := generateSearchTerms_dedup_and_category_terms
    { itemName := "Hen", category := "milk_glass" } (by decide) (by decide)
  exact ⟨by decide, by decide, h.1, h.2.1⟩

/-- C10: for every request whose category is any value other than
`milk_glass`, the category display name is the literal `jadite`, the
generated terms are the same as for any other non-`milk_glass` category
(the enum-to-phrase mapping is a two-way branch, not a per-category table),
and every generated term other than the two category-free manufacturer
terms contains `jadite`. -/
theorem generateSearchTerms_non_milk_glass_uses_jadite
    (request : MarketAnalysisRequest) (h : request.category ≠ "milk_glass") :
    categoryDisplayName request.category = "jadite" ∧
      (∀ c2 : String, c2 ≠ "milk_glass" →
        generateSearchTerms { request with category := c2 } = generateSearchTerms request) ∧
      ∀ t ∈ generateSearchTerms request,
        t ≠ jsTrim (request.manufacturer ++ " " ++ request.itemName) →
        t ≠ jsTrim (request.itemName ++ " " ++ request.manufacturer) →
        jsIncludes t "jadite" = true := by
  have hd : categoryDisplayName request.category = "jadite" := by
    unfold categoryDisplayName; rw [if_neg h]
  refine ⟨hd, ?_, ?_⟩
  · intro c2 hc2
    have hd2 : categoryDisplayName c2 = "jadite" := by
      unfold categoryDisplayName; rw [if_neg hc2]
    simp [generateSearchTerms, hd, hd2]
  · intro t ht h4 h5
    have := generateSearchTerms_includes request t ht h4 h5
    rwa [hd] at this

/-- C10 (witness). -/
theorem generateSearchTerms_non_milk_glass_uses_jadite_witness :
    ("blue_glass" : String) ≠ "milk_glass" ∧
      categoryDisplayName "blue_glass" = "jadite" ∧
      generateSearchTerms { itemName := "Hen", category := "jadite" } =
        generateSearchTerms { itemName := "Hen", category := "blue_glass" } := by
  have h := generateSearchTerms_non_milk_glass_uses_jadite
    { itemName := "Hen", category := "blue_glass" } (by decide)
  exact ⟨by decide, h.1, h.2.1 "jadite" (by decide)⟩

/-! ## Claim theorems: market analysis -/

/-- C8: `calculateMarketAnalysis` applied to the empty list returns exactly
`{averagePrice: 0, recentSales: [], priceRange: {min: 0, max: 0},
confidence: 'low'}`. -/
theorem calculateMarketAnalysis_empty :
    calculateMarketAnalysis [] =
      { averagePrice := 0, recentSales := [], priceRange := ⟨0, 0⟩,
        confidence := Confidence.low } := rfl

/-- C2: for every non-empty list of sold listings, `averagePrice` is the
first element's price rounded to 2 decimal places, and whenever that differs
from the rounded arithmetic mean of all prices, `averagePrice` is not the
rounded arithmetic mean. -/
theorem calculateMarketAnalysis_averagePrice_is_head
    (first : eBayItem) (rest : List eBayItem) :
    (calculateMarketAnalysis (first :: rest)).averagePrice = jsRound2 first.price ∧
      (jsRound2 first.price ≠
          jsRound2 (arithmeticMean ((first :: rest).map (fun item => item.price))) →
        (calculateMarketAnalysis (first :: rest)).averagePrice ≠
          jsRound2 (arithmeticMean ((first :: rest).map (fun item => item.price)))) := by
  have h1 : (calculateMarketAnalysis (first :: rest)).averagePrice = jsRound2 first.price := rfl
  exact ⟨h1, fun hne => h1 ▸ hne⟩

/-- C2 (witness): two sales priced 100 and 50; the estimate is 100, not the
mean 75. -/
theorem calculateMarketAnalysis_averagePrice_is_head_witness :
    (calculateMarketAnalysis
        [{ title := "A", price := 100, soldDate := "d", condition := "G", url := "u" },
         { title := "B", price := 50, soldDate := "d", condition := "G", url := "u" }]).averagePrice =
      jsRound2 100 ∧
    (calculateMarketAnalysis
        [{ title := "A", price := 100, soldDate := "d", condition := "G", url := "u" },
         { title := "B", price := 50, soldDate := "d", condition := "G", url := "u" }]).averagePrice ≠
      jsRound2 (arithmeticMean [100, 50]) := by
  have h := calculateMarketAnalysis_averagePrice_is_head
    { title := "A", price := 100, soldDate := "d", condition := "G", url := "u" }
    [{ title := "B", price := 50, soldDate := "d", condition := "G", url := "u" }]
  refine ⟨h.1, ?_⟩
  have hm : List.map (fun item => item.price)
      [({ title := "A", price := 100, soldDate := "d", condition := "G", url := "u" } : eBayItem),
       { title := "B", price := 50, soldDate := "d", condition := "G", url := "u" }] =
      [100, 50] := rfl
  have harg : jsRound2 (100 : ℚ) ≠ jsRound2 (arithmeticMean [100, 50]) := by
    norm_num [jsRound2, jsRound_eq_floor, arithmeticMean, List.sum_cons, List.sum_nil]
  have hconc := h.2 (by rw [hm]; exact harg)
  rwa [hm] at hconc

/-- C3: confidence policy of `calculateMarketAnalysis` for a non-empty list
with positive most-recent price: with ≥5 sales, `high` iff the relative
spread `(max-min)/sales[0].price` is below 0.3, else `medium` (so ≥5
all-equal prices give `high`); with 3 or 4 sales always `medium`; with 1 or
2 sales always `low`. -/
theorem calculateMarketAnalysis_confidence_policy
    (first : eBayItem) (rest : List eBayItem) (hpos : 0 < first.price) :
    (5 ≤ (first :: rest).length →
      ((jsMathMax ((first :: rest).map (fun item => item.price)) -
            jsMathMin ((first :: rest).map (fun item => item.price))) / first.price < 3/10 →
        (calculateMarketAnalysis (first :: rest)).confidence = Confidence.high) ∧
      (¬((jsMathMax ((first :: rest).map (fun item => item.price)) -
            jsMathMin ((first :: rest).map (fun item => item.price))) / first.price < 3/10) →
        (calculateMarketAnalysis (first :: rest)).confidence = Confidence.medium)) ∧
    ((first :: rest).length = 3 ∨ (first :: rest).length = 4 →
      (calculateMarketAnalysis (first :: rest)).confidence = Confidence.medium) ∧
    ((first :: rest).length ≤ 2 →
      (calculateMarketAnalysis (first :: rest)).confidence = Confidence.low) ∧
    (5 ≤ (first :: rest).length → (∀ x ∈ first :: rest, x.price = first.price) →
      (calculateMarketAnalysis (first :: rest)).confidence = Confidence.high) := by
  have hconf : (calculateMarketAnalysis (first :: rest)).confidence =
      (if 5 ≤ (first :: rest).length then
        if (jsMathMax ((first :: rest).map (fun item => item.price)) -
              jsMathMin ((first :: rest).map (fun item => item.price))) / first.price < 3/10
        then Confidence.high else Confidence.medium
      else if 3 ≤ (first :: rest).length then Confidence.medium
      else Confidence.low) := rfl
  refine ⟨?_, ?_, ?_, ?_⟩
  · intro h5
    rw [hconf, if_pos h5]
    constructor
    · intro hv; rw [if_pos hv]
    · intro hv; rw [if_neg hv]
  · intro h34
    have hn5 : ¬ 5 ≤ (first :: rest).length := by omega
    have h3 : 3 ≤ (first :: rest).length := by omega
    rw [hconf, if_neg hn5, if_pos h3]
  · intro h2
    have hn5 : ¬ 5 ≤ (first :: rest).length := by omega
    have hn3 : ¬ 3 ≤ (first :: rest).length := by omega
    rw [hconf, if_neg hn5, if_neg hn3]
  · intro h5 hall
    have hrest : ∀ x ∈ rest.map (fun item => item.price), x = first.price := by
      intro x hx
      obtain ⟨y, hy, rfl⟩ := List.mem_map.mp hx
      exact hall y (List.mem_cons_of_mem _ hy)
    have hmin : jsMathMin ((first :: rest).map (fun item => item.price)) = first.price := by
      rw [List.map_cons, jsMathMin]
      exact foldl_min_of_all_eq _ _ hrest
    have hmax : jsMathMax ((first :: rest).map (fun item => item.price)) = first.price := by
      rw [List.map_cons, jsMathMax]
      exact foldl_max_of_all_eq _ _ hrest
    rw [hconf, if_pos h5, hmin, hmax, if_pos (by rw [sub_self, zero_div]; norm_num)]

/-- C3 (witness): five equal-priced sales at 100 give confidence `high`. -/
theorem calculateMarketAnalysis_confidence_policy_witness :
    (0 : ℚ) < 100 ∧
      (calculateMarketAnalysis
          [{ title := "A", price := 100, soldDate := "d", condition := "G", url := "u" },
           { title := "B", price := 100, soldDate := "d", condition := "G", url := "u" },
           { title := "C", price := 100, soldDate := "d", condition := "G", url := "u" },
           { title := "D", price := 100, soldDate := "d", condition := "G", url := "u" },
           { title := "E", price := 100, soldDate := "d", condition := "G", url := "u" }]).confidence =
        Confidence.high := by
  have h := calculateMarketAnalysis_confidence_policy
    { title := "A", price := 100, soldDate := "d", condition := "G", url := "u" }
    [{ title := "B", price := 100, soldDate := "d", condition := "G", url := "u" },
     { title := "C", price := 100, soldDate := "d", condition := "G", url := "u" },
     { title := "D", price := 100, soldDate := "d", condition := "G", url := "u" },
     { title := "E", price := 100, soldDate := "d", condition := "G", url := "u" }]
    (by norm_num)
  refine ⟨by norm_num, h.2.2.2 (by simp) ?_⟩
  intro x hx
  rcases List.mem_cons.mp hx with rfl | hx
  · rfl
  rcases List.mem_cons.mp hx with rfl | hx
  · rfl
  rcases List.mem_cons.mp hx with rfl | hx
  · rfl
  rcases List.mem_cons.mp hx with rfl | hx
  · rfl
  rcases List.mem_cons.mp hx with rfl | hx
  · rfl
  · simp at hx

/-! ## Claim theorems: active-listing search and fallback -/

theorem searchEbayListings_eq_mock_of_failure
    (env : ActiveEnv) (searchTerm : String) (maxPrice : Option ℚ)
    (hfail : env.appId.getD "" = "" ∨ ∀ raw, env.outcome ≠ ActiveOutcome.items raw) :
    searchEbayListings env searchTerm maxPrice =
      getMockEbayData env searchTerm maxPrice := by
  rcases hfail with h | h
  · simp [searchEbayListings, h]
  · by_cases happ : env.appId.getD "" = ""
    · simp [searchEbayListings, happ]
    · rw [searchEbayListings, if_neg happ]
      cases houtcome : env.outcome with
      | items raw => exact absurd houtcome (h raw)
      | httpError => rfl
      | thrown => rfl
      | badAck => rfl

theorem getMockEbayData_length_le_two (env : ActiveEnv) (searchTerm : String)
    (maxPrice : Option ℚ) :
    (getMockEbayData env searchTerm maxPrice).length ≤ 2 := by
  simp only [getMockEbayData]
  exact List.length_filter_le _ _

theorem getMockEbayData_length_two_no_ceiling (env : ActiveEnv)
    (searchTerm : String) (maxPrice : Option ℚ)
    (hq : qTruthy maxPrice = false) :
    (getMockEbayData env searchTerm maxPrice).length = 2 := by
  simp [getMockEbayData, hq]

/-- C4 (amended): in every failure mode — missing credential, non-2xx
status, parse failure, non-Success acknowledgement, or thrown exception —
`searchEbayListings` returns exactly the synthetic fallback; the fallback
produces at most 2 listings, and exactly 2 when no (nonzero) price ceiling
is supplied. -/
theorem searchEbayListings_always_falls_back
    (env : ActiveEnv) (searchTerm : String) (maxPrice : Option ℚ)
    (hfail : env.appId.getD "" = "" ∨ ∀ raw, env.outcome ≠ ActiveOutcome.items raw) :
    searchEbayListings env searchTerm maxPrice = getMockEbayData env searchTerm maxPrice ∧
      (getMockEbayData env searchTerm maxPrice).length ≤ 2 ∧
      (qTruthy maxPrice = false →
        (getMockEbayData env searchTerm maxPrice).length = 2) :=
  ⟨searchEbayListings_eq_mock_of_failure env searchTerm maxPrice hfail,
    getMockEbayData_length_le_two env searchTerm maxPrice,
    fun hq => getMockEbayData_length_two_no_ceiling env searchTerm maxPrice hq⟩

/-- C4 (counterexample environment): failed upstream call, both random
draws at 0.99. -/
def cexActiveEnv : ActiveEnv :=
  { appId := some "key", outcome := ActiveOutcome.httpError, mr1 := 99/100,
    mr2 := 99/100, endTime1 := "e1", endTime2 := "e2", nowIso := "n" }

/-- C4 (counterexample): with a price ceiling of 10 and both random draws
at 0.99, the synthetic fallback generates prices 11.92 and 10.32, filters
both out, and returns 0 listings — refuting "the synthetic fallback
generator produces 2 to 3 plausible listings". -/
theorem getMockEbayData_under_ceiling_can_be_empty :
    (getMockEbayData cexActiveEnv "glass" (some 10)).length = 0 := by
  have hq : qTruthy (some (10 : ℚ)) = true := by simp [qTruthy]
  have hb : min ((10 : ℚ) * (8/10)) 50 = 8 := by norm_num [min_def]
  have hp1 : jsRound2 ((99/100 : ℚ) * 8 + 8 * (1/2)) = 1192/100 := by
    rw [jsRound2, jsRound_eq_floor]; norm_num
  have hp2 : jsRound2 ((99/100 : ℚ) * 8 + 8 * (3/10)) = 1032/100 := by
    rw [jsRound2, jsRound_eq_floor]; norm_num
  have hn1 : ¬((1192 : ℚ)/100 ≤ 10) := by norm_num
  have hn2 : ¬((1032 : ℚ)/100 ≤ 10) := by norm_num
  simp only [getMockEbayData, cexActiveEnv, hq, if_true, Option.getD, hb, hp1, hp2]
  simp [List.filter, hn1, hn2]

/-- C4 (witness): with no credential configured and no ceiling, the search
returns the fallback and the fallback has exactly 2 listings. -/
theorem searchEbayListings_always_falls_back_witness :
    searchEbayListings
        { appId := none, outcome := ActiveOutcome.badAck, mr1 := 0, mr2 := 0,
          endTime1 := "e1", endTime2 := "e2", nowIso := "n" } "cup" none =
      getMockEbayData
        { appId := none, outcome := ActiveOutcome.badAck, mr1 := 0, mr2 := 0,
          endTime1 := "e1", endTime2 := "e2", nowIso := "n" } "cup" none ∧
    (getMockEbayData
        { appId := none, outcome := ActiveOutcome.badAck, mr1 := 0, mr2 := 0,
          endTime1 := "e1", endTime2 := "e2", nowIso := "n" } "cup" none).length = 2 := by
  have h := searchEbayListings_always_falls_back
    { appId := none, outcome := ActiveOutcome.badAck, mr1 := 0, mr2 := 0,
      endTime1 := "e1", endTime2 := "e2", nowIso := "n" } "cup" none (Or.inl rfl)
  exact ⟨h.1, h.2.2 rfl⟩

/-! ## Claim theorems: completed-listing search -/

theorem foldl_append_acc {α β : Type} (f : α → List β) (l : List α) :
    ∀ acc : List β,
      l.foldl (fun a t => a ++ f t) acc = acc ++ l.foldl (fun a t => a ++ f t) [] := by
  induction l with
  | nil => intro acc; simp
  | cons x xs ih =>
    intro acc
    rw [List.foldl_cons, List.foldl_cons, ih (acc ++ f x), ih ([] ++ f x)]
    simp

theorem mem_foldl_append {α β : Type} (f : α → List β) (l : List α) (x : β) :
    x ∈ l.foldl (fun a t => a ++ f t) [] ↔ ∃ t ∈ l, x ∈ f t := by
  induction l with
  | nil => simp
  | cons y ys ih =>
    rw [List.foldl_cons, foldl_append_acc]
    simp only [List.nil_append, List.mem_append, ih, List.mem_cons]
    constructor
    · rintro (hy | ⟨t, ht, hx⟩)
      · exact ⟨y, Or.inl rfl, hy⟩
      · exact ⟨t, Or.inr ht, hx⟩
    · rintro ⟨t, rfl | ht, hx⟩
      · exact Or.inl hx
      · exact Or.inr ⟨t, ht, hx⟩

theorem foldl_append_congr {α β : Type} (f g : α → List β) (l : List α)
    (h : ∀ t ∈ l, f t = g t) :
    ∀ acc, l.foldl (fun a t => a ++ f t) acc = l.foldl (fun a t => a ++ g t) acc := by
  induction l with
  | nil => intro _; rfl
  | cons x xs ih =>
    intro acc
    rw [List.foldl_cons, List.foldl_cons, h x (List.mem_cons_self _ _)]
    exact ih (fun t ht => h t (List.mem_cons_of_mem _ ht)) _

theorem price_pos_of_mem_extractSoldItems (env : SoldEnv) (o : TermOutcome)
    (x : eBayItem) (hx : x ∈ extractSoldItems env o) : 0 < x.price := by
  cases o with
  | items raw =>
    simp only [extractSoldItems] at hx
    obtain ⟨it, hit, hsome⟩ := List.mem_filterMap.mp hx
    unfold soldItemOf at hsome
    by_cases hs : it.sellingState = some "EndedWithSales"
    · rw [if_pos hs] at hsome
      cases hp : it.price with
      | none => rw [hp] at hsome; exact Option.noConfusion hsome
      | some p =>
        rw [hp] at hsome
        dsimp only at hsome
        by_cases hpp : 0 < p
        · rw [if_pos hpp] at hsome
          have hx2 := Option.some.inj hsome
          rw [← hx2]
          exact hpp
        · rw [if_neg hpp] at hsome; exact Option.noConfusion hsome
    · rw [if_neg hs] at hsome; exact Option.noConfusion hsome
  | httpError => simp [extractSoldItems] at hx
  | thrown => simp [extractSoldItems] at hx
  | badAck => simp [extractSoldItems] at hx

theorem searcheBaySoldListings_eq_ite (env : SoldEnv) (terms : List String)
    (hApp : env.appId.getD "" ≠ "") :
    searcheBaySoldListings env terms =
      (if liveSoldResults env terms = [] then getMockData env terms
       else (liveSoldResults env terms).take 10) := by
  rw [searcheBaySoldListings, if_neg hApp]
  cases hres : liveSoldResults env terms with
  | nil => simp [hres]
  | cons a l => simp [hres]

/-- C5: with a configured credential, `searcheBaySoldListings` accumulates
one call's results per term over only the first 3 terms in order (changing
the outcomes of any later term changes nothing); when any live results were
collected it returns at most 10 records, all with positive price; when none
were collected it falls back to the synthetic generator applied to the
whole term batch. -/
theorem searcheBaySoldListings_policy (env : SoldEnv) (terms : List String)
    (hApp : env.appId.getD "" ≠ "") :
    searcheBaySoldListings env terms =
      (if liveSoldResults env terms = [] then getMockData env terms
       else (liveSoldResults env terms).take 10) ∧
    (∀ outcome2 : String → TermOutcome,
      (∀ t ∈ terms.take 3, outcome2 t = env.outcome t) →
      searcheBaySoldListings { env with outcome := outcome2 } terms =
        searcheBaySoldListings env terms) ∧
    (liveSoldResults env terms ≠ [] →
      (searcheBaySoldListings env terms).length ≤ 10 ∧
      ∀ x ∈ searcheBaySoldListings env terms, 0 < x.price) := by
  refine ⟨searcheBaySoldListings_eq_ite env terms hApp, ?_, ?_⟩
  · intro outcome2 hagree
    have hApp2 : ({ env with outcome := outcome2 } : SoldEnv).appId.getD "" ≠ "" := hApp
    have hmock : getMockData { env with outcome := outcome2 } terms =
        getMockData env terms := rfl
    have hlive : liveSoldResults { env with outcome := outcome2 } terms =
        liveSoldResults env terms := by
      unfold liveSoldResults
      refine foldl_append_congr _ _ _ ?_ []
      intro t ht
      show extractSoldItems { env with outcome := outcome2 } (outcome2 t) =
        extractSoldItems env (env.outcome t)
      rw [hagree t ht]
      rfl
    rw [searcheBaySoldListings_eq_ite _ _ hApp2,
      searcheBaySoldListings_eq_ite _ _ hApp, hlive, hmock]
  · intro hne
    rw [searcheBaySoldListings_eq_ite env terms hApp, if_neg hne]
    refine ⟨List.length_take_le _ _, ?_⟩
    intro x hx
    have hx2 : x ∈ liveSoldResults env terms := List.mem_of_mem_take hx
    obtain ⟨t, ht, hxt⟩ := (mem_foldl_append _ _ _).mp hx2
    exact price_pos_of_mem_extractSoldItems env _ x hxt

/-- C5 (witness environment): one successful term outcome with a single
sold item priced 50. -/
def cSoldEnvW : SoldEnv :=
  { appId := some "k",
    outcome := fun _ => TermOutcome.items
      [{ sellingState := some "EndedWithSales", title := some "t",
         price := some 50, endTime := some "e", condition := some "c",
         url := some "u", imageUrl := none }],
    r1 := 0, r2 := 0, r3 := 0, soldDate1 := "d1", soldDate2 := "d2",
    soldDate3 := "d3", nowIso := "n" }

/-- C5 (witness). -/
theorem searcheBaySoldListings_policy_witness :
    (searcheBaySoldListings cSoldEnvW ["a"]).length ≤ 10 ∧
      ∀ x ∈ searcheBaySoldListings cSoldEnvW ["a"], 0 < x.price := by
  have hlive : liveSoldResults cSoldEnvW ["a"] =
      [{ title := "t", price := 50, soldDate := "e", condition := "c",
         url := "u", imageUrl := none }] := by
    simp [liveSoldResults, cSoldEnvW, extractSoldItems, soldItemOf, jsOr, jsOrOpt,
      show (0 : ℚ) < 50 from by norm_num]
  have h := searcheBaySoldListings_policy cSoldEnvW ["a"] (by simp [cSoldEnvW])
  exact h.2.2 (by rw [hlive]; simp)

/-! ## Claim theorems: HTTP handler validation -/

/-- C9: a POST whose body has an empty (or missing, modelled as empty)
`itemName` or `category` yields status 400 with the descriptive message, and
the response is independent of the search backend — no search or analysis
is performed. -/
theorem handleMarketAnalysis_missing_fields_400
    (s1 s2 : List String → List eBayItem) (body : MarketAnalysisRequest)
    (h : body.itemName = "" ∨ body.category = "") :
    handleMarketAnalysis s1 ⟨"POST", some body⟩ =
      ⟨400, ResponseBody.error "Item name and category are required"⟩ ∧
    handleMarketAnalysis s1 ⟨"POST", some body⟩ =
      handleMarketAnalysis s2 ⟨"POST", some body⟩ := by
  have h400 : ∀ s : List String → List eBayItem,
      handleMarketAnalysis s ⟨"POST", some body⟩ =
        ⟨400, ResponseBody.error "Item name and category are required"⟩ := by
    intro s
    rcases h with h | h <;> simp [handleMarketAnalysis, h]
  exact ⟨h400 s1, (h400 s1).trans (h400 s2).symm⟩

/-- C9 (witness): `{itemName: "", category: "jadite"}` gives a 400. -/
theorem handleMarketAnalysis_missing_fields_400_witness :
    handleMarketAnalysis (fun _ => []) ⟨"POST", some { itemName := "", category := "jadite" }⟩ =
      ⟨400, ResponseBody.error "Item name and category are required"⟩ ∧
    handleMarketAnalysis (fun _ => []) ⟨"POST", some { itemName := "", category := "jadite" }⟩ =
      handleMarketAnalysis
        (fun _ => [{ title := "x", price := 5, soldDate := "d", condition := "G", url := "u" }])
        ⟨"POST", some { itemName := "", category := "jadite" }⟩ :=
  handleMarketAnalysis_missing_fields_400 _ _ _ (Or.inl rfl)

/-! ## Claim theorems: wishlist monitoring -/

theorem existsInStore_mono (s ext : List FoundListing) (itemId url : String)
    (h : existsInStore s itemId url = true) :
    existsInStore (s ++ ext) itemId url = true := by
  unfold existsInStore at h ⊢
  rw [List.any_append, h]
  simp

theorem processListings_no_throw (env : MonitorEnv) (itemId : String)
    (hno : ∀ i, env.exn ≠ some (ProcException.atIndex i)) :
    ∀ (ls : List EbayListing) (i count : ℕ) (store : List FoundListing),
      (processListings env itemId ls i count store).2.2 = false := by
  intro ls
  induction ls with
  | nil => intro i c s; rfl
  | cons x rest ih =>
    intro i c s
    simp only [processListings]
    rw [if_neg (hno i)]
    by_cases he : existsInStore s itemId x.url = true
    · rw [if_pos he]; exact ih _ _ _
    · rw [if_neg he]
      by_cases hf : env.insertFails (foundRowOf env itemId x) = true
      · rw [if_pos hf]; exact ih _ _ _
      · rw [if_neg hf]; exact ih _ _ _

theorem processListings_store_extends (env : MonitorEnv) (itemId : String) :
    ∀ (ls : List EbayListing) (i count : ℕ) (store : List FoundListing),
      ∃ ext, (processListings env itemId ls i count store).2.1 = store ++ ext := by
  intro ls
  induction ls with
  | nil => intro i c s; exact ⟨[], by simp [processListings]⟩
  | cons x rest ih =>
    intro i c s
    simp only [processListings]
    by_cases hexn : env.exn = some (ProcException.atIndex i)
    · rw [if_pos hexn]; exact ⟨[], by simp⟩
    · rw [if_neg hexn]
      by_cases he : existsInStore s itemId x.url = true
      · rw [if_pos he]; exact ih _ _ _
      · rw [if_neg he]
        by_cases hf : env.insertFails (foundRowOf env itemId x) = true
        · rw [if_pos hf]; exact ih _ _ _
        · rw [if_neg hf]
          obtain ⟨ext, hext⟩ := ih (i + 1) (c + 1) (s ++ [foundRowOf env itemId x])
          exact ⟨foundRowOf env itemId x :: ext, by rw [hext]; simp⟩

theorem processListings_coverage (env : MonitorEnv) (itemId : String)
    (hno : ∀ i, env.exn ≠ some (ProcException.atIndex i)) :
    ∀ (ls : List EbayListing) (i count : ℕ) (store : List FoundListing),
      ∀ l ∈ ls,
        existsInStore (processListings env itemId ls i count store).2.1 itemId l.url = true ∨
        env.insertFails (foundRowOf env itemId l) = true := by
  intro ls
  induction ls with
  | nil => intro i c s l hl; simp at hl
  | cons x rest ih =>
    intro i c s l hl
    simp only [processListings]
    rw [if_neg (hno i)]
    by_cases he : existsInStore s itemId x.url = true
    · rw [if_pos he]
      rcases List.mem_cons.mp hl with rfl | hl'
      · obtain ⟨ext, hext⟩ := processListings_store_extends env itemId rest (i + 1) c s
        rw [hext]
        exact Or.inl (existsInStore_mono _ _ _ _ he)
      · exact ih _ _ _ l hl'
    · rw [if_neg he]
      by_cases hf : env.insertFails (foundRowOf env itemId x) = true
      · rw [if_pos hf]
        rcases List.mem_cons.mp hl with rfl | hl'
        · exact Or.inr hf
        · exact ih _ _ _ l hl'
      · rw [if_neg hf]
        rcases List.mem_cons.mp hl with rfl | hl'
        · obtain ⟨ext, hext⟩ := processListings_store_extends env itemId rest (i + 1)
            (c + 1) (s ++ [foundRowOf env itemId l])
          rw [hext]
          refine Or.inl (existsInStore_mono _ _ _ _ ?_)
          simp [existsInStore, foundRowOf]
        · exact ih _ _ _ l hl'

theorem processListings_stable (env : MonitorEnv) (itemId : String)
    (hno : ∀ i, env.exn ≠ some (ProcException.atIndex i)) :
    ∀ (ls : List EbayListing) (i count : ℕ) (store : List FoundListing),
      (∀ l ∈ ls, existsInStore store itemId l.url = true ∨
        env.insertFails (foundRowOf env itemId l) = true) →
      processListings env itemId ls i count store = (count, store, false) := by
  intro ls
  induction ls with
  | nil => intro i c s _; rfl
  | cons x rest ih =>
    intro i c s hcov
    simp only [processListings]
    rw [if_neg (hno i)]
    by_cases he : existsInStore s itemId x.url = true
    · rw [if_pos he]
      exact ih _ _ _ (fun l hl => hcov l (List.mem_cons_of_mem _ hl))
    · rcases hcov x (List.mem_cons_self _ _) with hex | hf
      · exact absurd hex he
      · rw [if_neg he, if_pos hf]
        exact ih _ _ _ (fun l hl => hcov l (List.mem_cons_of_mem _ hl))

theorem storeKeyUnique_append_row (s : List FoundListing) (row : FoundListing)
    (hs : storeKeyUnique s)
    (hex : ¬ existsInStore s row.wishlistItemId row.listingUrl = true) :
    storeKeyUnique (s ++ [row]) := by
  intro id2 url2
  rw [List.filter_append, List.length_append]
  by_cases hmatch : (row.wishlistItemId == id2 && row.listingUrl == url2) = true
  · rw [Bool.and_eq_true] at hmatch
    obtain ⟨h1, h2⟩ := hmatch
    have hid : row.wishlistItemId = id2 := eq_of_beq h1
    have hurl : row.listingUrl = url2 := eq_of_beq h2
    have hfs : s.filter (fun r => r.wishlistItemId == id2 && r.listingUrl == url2) = [] := by
      rw [List.filter_eq_nil_iff]
      intro a ha hpa
      apply hex
      unfold existsInStore
      rw [List.any_eq_true]
      refine ⟨a, ha, ?_⟩
      rw [hid, hurl]
      exact hpa
    rw [hfs]
    simpa using List.length_filter_le _ [row]
  · have hrow0 : [row].filter (fun r => r.wishlistItemId == id2 && r.listingUrl == url2) = [] := by
      simp [List.filter_cons, hmatch]
    rw [hrow0]
    simpa using hs id2 url2

theorem processListings_preserves_unique (env : MonitorEnv) (itemId : String) :
    ∀ (ls : List EbayListing) (i count : ℕ) (store : List FoundListing),
      storeKeyUnique store →
      storeKeyUnique (processListings env itemId ls i count store).2.1 := by
  intro ls
  induction ls with
  | nil => intro i c s hs; exact hs
  | cons x rest ih =>
    intro i c s hs
    simp only [processListings]
    by_cases hexn : env.exn = some (ProcException.atIndex i)
    · rw [if_pos hexn]; exact hs
    · rw [if_neg hexn]
      by_cases he : existsInStore s itemId x.url = true
      · rw [if_pos he]; exact ih _ _ _ hs
      · rw [if_neg he]
        by_cases hf : env.insertFails (foundRowOf env itemId x) = true
        · rw [if_pos hf]; exact ih _ _ _ hs
        · rw [if_neg hf]
          exact ih _ _ _ (storeKeyUnique_append_row s (foundRowOf env itemId x) hs he)

/-- C6: with no thrown exception, running `processWishlistItem` twice in
succession on the same item over the same environment (hence the same
observed listing set) records 0 new listings on the second run, and the
store keeps at most one `FoundListing` per `(wishlistItemId, listingUrl)`
pair. -/
theorem processWishlistItem_idempotent_and_unique
    (env : MonitorEnv) (item : WishlistItem) (store : List FoundListing)
    (hexn : env.exn = none) (huniq : storeKeyUnique store) :
    (processWishlistItem env item (processWishlistItem env item store).2.1).1 = 0 ∧
    storeKeyUnique
      (processWishlistItem env item (processWishlistItem env item store).2.1).2.1 := by
  have hno : ∀ i, env.exn ≠ some (ProcException.atIndex i) := by
    intro i h; rw [hexn] at h; exact Option.noConfusion h
  have hupd : ¬ env.exn = some ProcException.atUpdate := by
    intro h; rw [hexn] at h; exact Option.noConfusion h
  by_cases hblank : jsTrim (item.ebaySearchTerm.getD "") = ""
  · rw [processWishlistItem, if_pos hblank, processWishlistItem, if_pos hblank]
    exact ⟨rfl, huniq⟩
  · rcases h1 : processListings env item.id
        (searchEbayListings env.searchEnv (item.ebaySearchTerm.getD "")
          item.desiredPriceMax) 0 0 store with ⟨c1, s1, t1⟩
    have ht1 : t1 = false := by
      have := processListings_no_throw env item.id hno
        (searchEbayListings env.searchEnv (item.ebaySearchTerm.getD "")
          item.desiredPriceMax) 0 0 store
      rw [h1] at this
      exact this
    subst ht1
    have huniq1 : storeKeyUnique s1 := by
      have := processListings_preserves_unique env item.id
        (searchEbayListings env.searchEnv (item.ebaySearchTerm.getD "")
          item.desiredPriceMax) 0 0 store huniq
      rw [h1] at this
      exact this
    have hcov : ∀ l ∈ searchEbayListings env.searchEnv (item.ebaySearchTerm.getD "")
        item.desiredPriceMax,
        existsInStore s1 item.id l.url = true ∨
        env.insertFails (foundRowOf env item.id l) = true := by
      intro l hl
      have := processListings_coverage env item.id hno
        (searchEbayListings env.searchEnv (item.ebaySearchTerm.getD "")
          item.desiredPriceMax) 0 0 store l hl
      rw [h1] at this
      exact this
    have h2 := processListings_stable env item.id hno
      (searchEbayListings env.searchEnv (item.ebaySearchTerm.getD "")
        item.desiredPriceMax) 0 0 s1 hcov
    have hrun1 : (processWishlistItem env item store).2.1 = s1 := by
      rw [processWishlistItem, if_neg hblank]
      simp only [h1, if_neg hupd, Bool.false_eq_true, if_false]
    rw [hrun1]
    have hrun2 : processWishlistItem env item s1 =
        (0, s1, { item with lastCheckedAt := some env.now, updatedAt := env.now }) := by
      rw [processWishlistItem, if_neg hblank]
      simp only [h2, if_neg hupd, Bool.false_eq_true, if_false]
    rw [hrun2]
    exact ⟨rfl, huniq1⟩

/-- Concrete active-search environment with no credential configured (the
search always degrades to the synthetic fallback); used by the monitoring
witnesses and counterexample. -/
def cActiveEnvNoKey : ActiveEnv :=
  { appId := none, outcome := ActiveOutcome.badAck, mr1 := 0, mr2 := 0,
    endTime1 := "e1", endTime2 := "e2", nowIso := "n" }

/-- C6 (witness environment). -/
def cMonEnvW : MonitorEnv :=
  { searchEnv := cActiveEnvNoKey,
    insertFails := fun _ => false,
    exn := none,
    now := "T1" }

/-- C6 (witness item). -/
def cItemW : WishlistItem :=
  { id := "id1", itemName := "Hen", ebaySearchTerm := some "glass",
    desiredPriceMax := none, status := "active", lastCheckedAt := none,
    updatedAt := "T0" }

/-- C6 (witness). -/
theorem processWishlistItem_idempotent_and_unique_witness :
    (processWishlistItem cMonEnvW cItemW (processWishlistItem cMonEnvW cItemW []).2.1).1 = 0 ∧
    storeKeyUnique
      (processWishlistItem cMonEnvW cItemW (processWishlistItem cMonEnvW cItemW []).2.1).2.1 :=
  processWishlistItem_idempotent_and_unique cMonEnvW cItemW [] (by rfl)
    (fun _ _ => by simp)

/-- C7 (amended): for a wishlist item with a non-blank search term, when no
exception is thrown during processing, `processWishlistItem` sets the
item's `lastCheckedAt` and `updatedAt` to the current time — individual
insert failures (returned error objects) do not prevent the update, but a
thrown exception makes the `catch` return 0 without running the update. -/
theorem processWishlistItem_updates_timestamps
    (env : MonitorEnv) (item : WishlistItem) (store : List FoundListing)
    (hexn : env.exn = none)
    (hterm : jsTrim (item.ebaySearchTerm.getD "") ≠ "") :
    (processWishlistItem env item store).2.2.lastCheckedAt = some env.now ∧
    (processWishlistItem env item store).2.2.updatedAt = env.now := by
  have hno : ∀ i, env.exn ≠ some (ProcException.atIndex i) := by
    intro i h; rw [hexn] at h; exact Option.noConfusion h
  have hupd : ¬ env.exn = some ProcException.atUpdate := by
    intro h; rw [hexn] at h; exact Option.noConfusion h
  rw [processWishlistItem, if_neg hterm]
  rcases h1 : processListings env item.id
      (searchEbayListings env.searchEnv (item.ebaySearchTerm.getD "")
        item.desiredPriceMax) 0 0 store with ⟨c1, s1, t1⟩
  have ht1 : t1 = false := by
    have := processListings_no_throw env item.id hno
      (searchEbayListings env.searchEnv (item.ebaySearchTerm.getD "")
        item.desiredPriceMax) 0 0 store
    rw [h1] at this
    exact this
  subst ht1
  simp [h1, hupd]

/-- C7 (witness). -/
theorem processWishlistItem_updates_timestamps_witness :
    (processWishlistItem cMonEnvW cItemW []).2.2.lastCheckedAt = some cMonEnvW.now ∧
    (processWishlistItem cMonEnvW cItemW []).2.2.updatedAt = cMonEnvW.now :=
  processWishlistItem_updates_timestamps cMonEnvW cItemW [] (by rfl) (by decide)

/-- C7 (counterexample environment): a store operation rejects while the
first listing is being processed. -/
def cMonEnvThrow : MonitorEnv :=
  { searchEnv := cActiveEnvNoKey,
    insertFails := fun _ => false,
    exn := some (ProcException.atIndex 0),
    now := "T1" }

/-- C7 (counterexample): a thrown exception during processing leaves the
item's timestamps unchanged — refuting "whether inserts succeeded,
individually failed, or an exception occurred during processing, the item's
lastCheckedAt and updatedAt fields are updated to the current time". -/
theorem processWishlistItem_exception_skips_update :
    (processWishlistItem cMonEnvThrow cItemW []).2.2 = cItemW ∧
    cItemW.lastCheckedAt = none ∧ cItemW.updatedAt ≠ cMonEnvThrow.now := by
  have hlen : (searchEbayListings cMonEnvThrow.searchEnv "glass" none).length = 2 := by
    rw [searchEbayListings_eq_mock_of_failure cMonEnvThrow.searchEnv "glass" none
      (Or.inl rfl)]
    exact getMockEbayData_length_two_no_ceiling cMonEnvThrow.searchEnv "glass" none rfl
  obtain ⟨a, rest, hshape⟩ : ∃ a rest,
      searchEbayListings cMonEnvThrow.searchEnv "glass" none = a :: rest := by
    cases h : searchEbayListings cMonEnvThrow.searchEnv "glass" none with
    | nil => rw [h] at hlen; simp at hlen
    | cons a r => exact ⟨a, r, rfl⟩
  refine ⟨?_, rfl, by decide⟩
  have hshape2 : searchEbayListings cMonEnvThrow.searchEnv
      (cItemW.ebaySearchTerm.getD "") cItemW.desiredPriceMax = a :: rest := hshape
  rw [processWishlistItem, if_neg (by decide), hshape2]
  have hpl : processListings cMonEnvThrow cItemW.id (a :: rest) 0 0 [] = (0, [], true) := by
    have hx : cMonEnvThrow.exn = some (ProcException.atIndex 0) := by rfl
    simp only [processListings]
    rw [if_pos hx]
  simp only [hpl, if_true]
